import Mathlib

/-!
Verification development for the behaviour-tree construction core:
the fluent `BehaviorTreeBuilder` (stack-based assembly over an arena of
nodes) and the `AlwaysFail` decorator's status propagation.

Node objects of the TypeScript source are mutable and aliased (a node
pushed on the parent stack is the same object already appended to its
parent's child list).  Following the design note of the specification
("an explicit, owned ordered sequence ... of frame handles (indices or
owned references into an arena of nodes)"), the embedding gives every
allocated node an index (`Nat`) into the builder's `nodes` arena; the
parent stack holds indices, and child links are indices, so mutation of
a stacked node is visible through every link to it, exactly as in the
source.
-/

namespace BehaviourTree

/-- Modelled from the spec: `TaskStatus`, the tri-state evaluation
outcome {Success, Failure, Running} (the enum's source file is not part
of the given sources). -/
inductive TaskStatus where
  | Success
  | Failure
  | Running
deriving DecidableEq

/-- Modelled from the spec: the `AbortTypes` flag passed to
`selector`/`sequence`; the builder only ever constructs it, its
meaning is out of scope. -/
inductive AbortTypes where
  | None
  | LowerPriority
  | Self
  | Both
deriving DecidableEq

/-- The payload of one allocated behaviour node.  Constructors mirror
the classes the builder instantiates in `BehaviorTreeBuilder.ts`:
leaves (`ExecuteAction`, `ExecuteActionConditional`, `LogAction`,
`WaitAciton` — the source's spelling —, `BehaviorTreeReference`),
decorators (single `child : Option Nat` slot, per the spec's Decorator
capability: "owns exactly zero or one child Node"), and composites
(ordered `children : List Nat`, per the spec's Composite capability).
A `BehaviorTreeReference` wraps an already built tree, stored by its
components (context, own arena, root index, update period).  The class
bodies other than `AlwaysFail` are not part of the given sources; their
state is modelled from the spec. -/
inductive NodeData (T : Type) where
  | executeAction (func : T → TaskStatus)
  | executeActionConditional (func : T → TaskStatus)
  | logAction (text : String)
  | waitAciton (waitTime : Rat)
  | behaviorTreeReference (subContext : T) (subRootId : Nat)
      (subNodes : List (NodeData T)) (subUpdatePeriod : Rat)
  | conditionalDecorator (func : T → TaskStatus) (shouldReevaluate : Bool)
      (child : Option Nat)
  | alwaysFail (child : Option Nat)
  | alwaysSucceed (child : Option Nat)
  | inverter (child : Option Nat)
  | repeater (count : Rat) (child : Option Nat)
  | untilFail (child : Option Nat)
  | untilSuccess (child : Option Nat)
  | parallel (children : List Nat)
  | parallelSelector (children : List Nat)
  | selector (abortType : AbortTypes) (children : List Nat)
  | randomSelector (children : List Nat)
  | sequence (abortType : AbortTypes) (children : List Nat)
  | randomSequence (children : List Nat)

/-- Modelled from the spec: the classes that extend `Composite` (the
builder's `instanceof Composite` test). -/
def isComposite {T : Type} : NodeData T → Bool
  | .parallel _ => true
  | .parallelSelector _ => true
  | .selector _ _ => true
  | .randomSelector _ => true
  | .sequence _ _ => true
  | .randomSequence _ => true
  | _ => false

/-- Modelled from the spec: the classes that extend `Decorator` (the
builder's `instanceof Decorator` test). -/
def isDecorator {T : Type} : NodeData T → Bool
  | .conditionalDecorator _ _ _ => true
  | .alwaysFail _ => true
  | .alwaysSucceed _ => true
  | .inverter _ => true
  | .repeater _ _ => true
  | .untilFail _ => true
  | .untilSuccess _ => true
  | _ => false

/-- Modelled from the spec: `Decorator`'s single-child assignment
(`parent.child = child` in `setChildOnParent`).  On a non-decorator
payload it is the identity (never reached by the builder). -/
def setDecoratorChild {T : Type} (d : NodeData T) (childId : Nat) : NodeData T :=
  match d with
  | .conditionalDecorator f r _ => .conditionalDecorator f r (some childId)
  | .alwaysFail _ => .alwaysFail (some childId)
  | .alwaysSucceed _ => .alwaysSucceed (some childId)
  | .inverter _ => .inverter (some childId)
  | .repeater c _ => .repeater c (some childId)
  | .untilFail _ => .untilFail (some childId)
  | .untilSuccess _ => .untilSuccess (some childId)
  | d => d

/-- Modelled from the spec: `Composite.addChild` — append to the ordered
child list.  On a non-composite payload it is the identity (never
reached by the builder). -/
def addCompositeChild {T : Type} (d : NodeData T) (childId : Nat) : NodeData T :=
  match d with
  | .parallel cs => .parallel (cs ++ [childId])
  | .parallelSelector cs => .parallelSelector (cs ++ [childId])
  | .selector a cs => .selector a (cs ++ [childId])
  | .randomSelector cs => .randomSelector (cs ++ [childId])
  | .sequence a cs => .sequence a (cs ++ [childId])
  | .randomSequence cs => .randomSequence (cs ++ [childId])
  | d => d

/-- Modelled from the spec: the built `BehaviorTree` — "an immutable
Tree wrapping the captured context, `currentNode` as root, and
`minInterval`".  The root is an index into the arena captured from the
builder. -/
structure BehaviorTree (T : Type) where
  context : T
  nodes : List (NodeData T)
  rootId : Nat
  updatePeriod : Rat

/-- The construction-time faults of the spec's error taxonomy; the
source raises them via `Assert`/`throw` (modelled from the spec's
names, the messages in the source are prose). -/
inductive BuilderFault where
  | emptyParentStack
  | notAComposite
  | emptyTree
deriving DecidableEq

/-- Modelled from the spec: `ArrayExt.peek` — the last element of the
append/remove-from-end (LIFO) parent stack. -/
def peek {α : Type} (l : List α) : Option α := l.getLast?

/-- The builder state of `BehaviorTreeBuilder.ts`: the captured
context, `_currentNode` (index of the last node recorded by a close),
`_parentNodeStack` (indices of open frames, top at the end), and the
arena of allocated nodes. -/
structure BehaviorTreeBuilder (T : Type) where
  context : T
  currentNode : Option Nat
  parentNodeStack : List Nat
  nodes : List (NodeData T)

/-- `BehaviorTreeBuilder.begin(context)`: fresh builder, empty stack,
no current node. -/
def begin {T : Type} (context : T) : BehaviorTreeBuilder T :=
  ⟨context, none, [], []⟩

/-- `endDecorator()`: pop the stack into `_currentNode`
(`this._currentNode = ArrayExt.pop(this._parentNodeStack)`). -/
def endDecorator {T : Type} (b : BehaviorTreeBuilder T) : BehaviorTreeBuilder T :=
  { b with currentNode := b.parentNodeStack.getLast?
         , parentNodeStack := b.parentNodeStack.dropLast }

/-- `setChildOnParent(child)`: look at the top of the parent stack; a
composite appends the child and stays open; a decorator takes the child
as its single child and is immediately closed via `endDecorator`; with
an empty stack neither `instanceof` branch fires and the builder is
returned unchanged.  (The inner `none` arm — a stack index outside the
arena — has no counterpart in the source, where the stack holds object
references; it is unreachable from `begin`.) -/
def setChildOnParent {T : Type} (b : BehaviorTreeBuilder T) (childId : Nat) :
    BehaviorTreeBuilder T :=
  match peek b.parentNodeStack with
  | none => b
  | some p =>
    match b.nodes[p]? with
    | none => b
    | some parent =>
      if isComposite parent then
        { b with nodes := b.nodes.set p (addCompositeChild parent childId) }
      else if isDecorator parent then
        endDecorator
          { b with nodes := b.nodes.set p (setDecoratorChild parent childId) }
      else b

/-- `pushParentNode(composite)`: allocate the node; if the stack is
non-empty first attach it to the current top via `setChildOnParent`;
then push it, making it the new top frame. -/
def pushParentNode {T : Type} (b : BehaviorTreeBuilder T) (composite : NodeData T) :
    BehaviorTreeBuilder T :=
  let id := b.nodes.length
  let b1 := { b with nodes := b.nodes ++ [composite] }
  let b2 := if b1.parentNodeStack.length > 0 then setChildOnParent b1 id else b1
  { b2 with parentNodeStack := b2.parentNodeStack ++ [id] }

/-- `action(func)`: leaf op; asserts a non-empty parent stack
(`EmptyParentStack` otherwise), then attaches a fresh `ExecuteAction`. -/
def action {T : Type} (func : T → TaskStatus) (b : BehaviorTreeBuilder T) :
    Except BuilderFault (BehaviorTreeBuilder T) :=
  if b.parentNodeStack.length = 0 then
    .error .emptyParentStack
  else
    .ok (setChildOnParent { b with nodes := b.nodes ++ [.executeAction func] }
          b.nodes.length)

/-- `actionR(func)`: `action` on the bool-to-status mapped function. -/
def actionR {T : Type} (func : T → Bool) (b : BehaviorTreeBuilder T) :
    Except BuilderFault (BehaviorTreeBuilder T) :=
  action (fun t => if func t then TaskStatus.Success else TaskStatus.Failure) b

/-- `conditional(func)`: leaf op; asserts a non-empty parent stack,
then attaches a fresh `ExecuteActionConditional`. -/
def conditional {T : Type} (func : T → TaskStatus) (b : BehaviorTreeBuilder T) :
    Except BuilderFault (BehaviorTreeBuilder T) :=
  if b.parentNodeStack.length = 0 then
    .error .emptyParentStack
  else
    .ok (setChildOnParent
          { b with nodes := b.nodes ++ [.executeActionConditional func] }
          b.nodes.length)

/-- `conditionalR(func)`: `conditional` on the bool-to-status mapped
function. -/
def conditionalR {T : Type} (func : T → Bool) (b : BehaviorTreeBuilder T) :
    Except BuilderFault (BehaviorTreeBuilder T) :=
  conditional (fun t => if func t then TaskStatus.Success else TaskStatus.Failure) b

/-- `logAction(text)`: leaf op; asserts a non-empty parent stack, then
attaches a fresh `LogAction`. -/
def logAction {T : Type} (text : String) (b : BehaviorTreeBuilder T) :
    Except BuilderFault (BehaviorTreeBuilder T) :=
  if b.parentNodeStack.length = 0 then
    .error .emptyParentStack
  else
    .ok (setChildOnParent { b with nodes := b.nodes ++ [.logAction text] }
          b.nodes.length)

/-- `waitAction(waitTime)`: leaf op; asserts a non-empty parent stack,
then attaches a fresh `WaitAciton`. -/
def waitAction {T : Type} (waitTime : Rat) (b : BehaviorTreeBuilder T) :
    Except BuilderFault (BehaviorTreeBuilder T) :=
  if b.parentNodeStack.length = 0 then
    .error .emptyParentStack
  else
    .ok (setChildOnParent { b with nodes := b.nodes ++ [.waitAciton waitTime] }
          b.nodes.length)

/-- `subTree(subTree)`: leaf op; asserts a non-empty parent stack, then
attaches a fresh `BehaviorTreeReference` to the given built tree. -/
def subTree {T : Type} (tr : BehaviorTree T) (b : BehaviorTreeBuilder T) :
    Except BuilderFault (BehaviorTreeBuilder T) :=
  if b.parentNodeStack.length = 0 then
    .error .emptyParentStack
  else
    .ok (setChildOnParent
          { b with nodes := b.nodes ++
              [.behaviorTreeReference tr.context tr.rootId tr.nodes tr.updatePeriod] }
          b.nodes.length)

/-- `conditionalDecorator(func, shouldReevaluate)`: open-decorator op
(the wrapped `ExecuteActionConditional` is stored by its function). -/
def conditionalDecorator {T : Type} (func : T → TaskStatus) (shouldReevaluate : Bool)
    (b : BehaviorTreeBuilder T) : BehaviorTreeBuilder T :=
  pushParentNode b (.conditionalDecorator func shouldReevaluate none)

/-- `conditionalDecoratorR(func, shouldReevaluate)`: the bool variant. -/
def conditionalDecoratorR {T : Type} (func : T → Bool) (shouldReevaluate : Bool)
    (b : BehaviorTreeBuilder T) : BehaviorTreeBuilder T :=
  conditionalDecorator
    (fun t => if func t then TaskStatus.Success else TaskStatus.Failure)
    shouldReevaluate b

/-- `alwaysFail()`: open-decorator op. -/
def alwaysFail {T : Type} (b : BehaviorTreeBuilder T) : BehaviorTreeBuilder T :=
  pushParentNode b (.alwaysFail none)

/-- `alwaysSucceed()`: open-decorator op. -/
def alwaysSucceed {T : Type} (b : BehaviorTreeBuilder T) : BehaviorTreeBuilder T :=
  pushParentNode b (.alwaysSucceed none)

/-- `inverter()`: open-decorator op. -/
def inverter {T : Type} (b : BehaviorTreeBuilder T) : BehaviorTreeBuilder T :=
  pushParentNode b (.inverter none)

/-- `repeater(count)`: open-decorator op. -/
def repeater {T : Type} (count : Rat) (b : BehaviorTreeBuilder T) :
    BehaviorTreeBuilder T :=
  pushParentNode b (.repeater count none)

/-- `untilFail()`: open-decorator op. -/
def untilFail {T : Type} (b : BehaviorTreeBuilder T) : BehaviorTreeBuilder T :=
  pushParentNode b (.untilFail none)

/-- `untilSuccess()`: open-decorator op. -/
def untilSuccess {T : Type} (b : BehaviorTreeBuilder T) : BehaviorTreeBuilder T :=
  pushParentNode b (.untilSuccess none)

/-- `paraller()` (the source's spelling): open-composite op. -/
def paraller {T : Type} (b : BehaviorTreeBuilder T) : BehaviorTreeBuilder T :=
  pushParentNode b (.parallel [])

/-- `parallelSelector()`: open-composite op. -/
def parallelSelector {T : Type} (b : BehaviorTreeBuilder T) : BehaviorTreeBuilder T :=
  pushParentNode b (.parallelSelector [])

/-- `selector(abortType)`: open-composite op. -/
def selector {T : Type} (abortType : AbortTypes) (b : BehaviorTreeBuilder T) :
    BehaviorTreeBuilder T :=
  pushParentNode b (.selector abortType [])

/-- `randomSelector()`: open-composite op. -/
def randomSelector {T : Type} (b : BehaviorTreeBuilder T) : BehaviorTreeBuilder T :=
  pushParentNode b (.randomSelector [])

/-- `sequence(abortType)`: open-composite op. -/
def sequence {T : Type} (abortType : AbortTypes) (b : BehaviorTreeBuilder T) :
    BehaviorTreeBuilder T :=
  pushParentNode b (.sequence abortType [])

/-- `randomSequence()`: open-composite op. -/
def randomSequence {T : Type} (b : BehaviorTreeBuilder T) : BehaviorTreeBuilder T :=
  pushParentNode b (.randomSequence [])

/-- `endComposite()`: asserts the top frame is a composite
(`NotAComposite` otherwise — also when the stack is empty, where the
source's `peek` yields `undefined`); pops it into `_currentNode`. -/
def endComposite {T : Type} (b : BehaviorTreeBuilder T) :
    Except BuilderFault (BehaviorTreeBuilder T) :=
  match peek b.parentNodeStack with
  | none => .error .notAComposite
  | some p =>
    match b.nodes[p]? with
    | none => .error .notAComposite
    | some parent =>
      if isComposite parent then
        .ok { b with currentNode := some p
                   , parentNodeStack := b.parentNodeStack.dropLast }
      else .error .notAComposite

/-- `build(updatePeriod)`: `EmptyTree` when `_currentNode` was never
set; otherwise wraps context, `_currentNode` as root, and the update
period into a `BehaviorTree`. -/
def build {T : Type} (updatePeriod : Rat) (b : BehaviorTreeBuilder T) :
    Except BuilderFault (BehaviorTree T) :=
  match b.currentNode with
  | none => .error .emptyTree
  | some n => .ok ⟨b.context, b.nodes, n, updatePeriod⟩

/-- Evaluation of a node against a context, fuelled.  The
`alwaysFail` arm is translated from `AlwaysFail.update` in the source:
evaluate the child; `Running` propagates, any terminal status becomes
`Failure`; a missing child is the `MissingChild` fault (`none`).  The
leaf arms (run the stored function) are modelled from the spec; every
other node kind's tick algorithm is out of scope and yields `none`. -/
def evalNode {T : Type} : Nat → List (NodeData T) → T → Nat → Option TaskStatus
  | 0, _, _, _ => none
  | fuel + 1, nodes, ctx, id =>
    match nodes[id]? with
    | some (.executeAction func) => some (func ctx)
    | some (.executeActionConditional func) => some (func ctx)
    | some (.alwaysFail child) =>
      match child with
      | none => none
      | some c =>
        match evalNode fuel nodes ctx c with
        | none => none
        | some status =>
          if status = TaskStatus.Running then some TaskStatus.Running
          else some TaskStatus.Failure
    | _ => none

/-- The child links of one node payload (for reachability statements). -/
def childIds {T : Type} : NodeData T → List Nat
  | .conditionalDecorator _ _ c => c.toList
  | .alwaysFail c => c.toList
  | .alwaysSucceed c => c.toList
  | .inverter c => c.toList
  | .repeater _ c => c.toList
  | .untilFail c => c.toList
  | .untilSuccess c => c.toList
  | .parallel cs => cs
  | .parallelSelector cs => cs
  | .selector _ cs => cs
  | .sequence _ cs => cs
  | .randomSelector cs => cs
  | .randomSequence cs => cs
  | _ => []

/-- Indices reachable from a node through child links, fuelled
(auxiliary, for stating which arena nodes the built tree's root can
see). -/
def reachableIds {T : Type} (nodes : List (NodeData T)) : Nat → Nat → List Nat
  | 0, _ => []
  | fuel + 1, id =>
    id :: (match nodes[id]? with
           | none => []
           | some d => (childIds d).flatMap (reachableIds nodes fuel))

/-- Chained leaf additions: `actions [f1, ..., fn] b` is the fluent
chain `b.action(f1).action(f2)...`, stopping at the first fault. -/
def actions {T : Type} : List (T → TaskStatus) → BehaviorTreeBuilder T →
    Except BuilderFault (BehaviorTreeBuilder T)
  | [], b => .ok b
  | f :: fs, b =>
    match action f b with
    | .ok b1 => actions fs b1
    | .error e => .error e

/-! ### Helper lemmas: the attach and open-parent algorithms, case by case -/

theorem peek_concat {α : Type} (l : List α) (a : α) : peek (l ++ [a]) = some a := by
  simp [peek]

theorem peek_ne_nil {α : Type} {l : List α} {a : α} (h : peek l = some a) : l ≠ [] := by
  intro h0
  rw [h0] at h
  simp [peek] at h

theorem isComposite_false_of_isDecorator {T : Type} (d : NodeData T)
    (h : isDecorator d = true) : isComposite d = false := by
  cases d <;> simp_all [isDecorator, isComposite]

theorem isDecorator_false_of_isComposite {T : Type} (d : NodeData T)
    (h : isComposite d = true) : isDecorator d = false := by
  cases d <;> simp_all [isDecorator, isComposite]

theorem isComposite_addCompositeChild {T : Type} (d : NodeData T) (i : Nat) :
    isComposite (addCompositeChild d i) = isComposite d := by
  cases d <;> rfl

theorem setChildOnParent_comp_top {T : Type} (b : BehaviorTreeBuilder T) (p : Nat)
    (d : NodeData T) (c : Nat) (hp : peek b.parentNodeStack = some p)
    (hget : b.nodes[p]? = some d) (hc : isComposite d = true) :
    setChildOnParent b c = { b with nodes := b.nodes.set p (addCompositeChild d c) } := by
  simp [setChildOnParent, hp, hget, hc]

theorem setChildOnParent_dec_top {T : Type} (b : BehaviorTreeBuilder T) (p : Nat)
    (d : NodeData T) (c : Nat) (hp : peek b.parentNodeStack = some p)
    (hget : b.nodes[p]? = some d) (hd : isDecorator d = true) :
    setChildOnParent b c =
      { b with nodes := b.nodes.set p (setDecoratorChild d c)
             , currentNode := some p
             , parentNodeStack := b.parentNodeStack.dropLast } := by
  have hp' : b.parentNodeStack.getLast? = some p := hp
  simp [setChildOnParent, hp, hget, hd, isComposite_false_of_isDecorator d hd,
    endDecorator, hp']

theorem setChildOnParent_other_top {T : Type} (b : BehaviorTreeBuilder T) (p : Nat)
    (d : NodeData T) (c : Nat) (hp : peek b.parentNodeStack = some p)
    (hget : b.nodes[p]? = some d) (hc : isComposite d = false)
    (hd : isDecorator d = false) :
    setChildOnParent b c = b := by
  simp [setChildOnParent, hp, hget, hc, hd]

theorem action_ok {T : Type} (f : T → TaskStatus) (b : BehaviorTreeBuilder T)
    (h : b.parentNodeStack ≠ []) :
    action f b =
      .ok (setChildOnParent { b with nodes := b.nodes ++ [.executeAction f] }
            b.nodes.length) := by
  simp [action, h]

theorem action_comp_top {T : Type} (b : BehaviorTreeBuilder T) (p : Nat)
    (d : NodeData T) (f : T → TaskStatus) (hp : peek b.parentNodeStack = some p)
    (hget : b.nodes[p]? = some d) (hc : isComposite d = true) :
    action f b =
      .ok { b with
            nodes := (b.nodes ++ [NodeData.executeAction f]).set p (addCompositeChild d b.nodes.length) } := by
  have hget' : (b.nodes ++ [NodeData.executeAction f])[p]? = some d := by
    rw [List.getElem?_append_left (List.getElem?_eq_some.mp hget).1]; exact hget
  have hsc := setChildOnParent_comp_top { b with nodes := b.nodes ++ [.executeAction f] }
    p d b.nodes.length hp hget' hc
  rw [action_ok f b (peek_ne_nil hp), hsc]

theorem action_dec_top {T : Type} (b : BehaviorTreeBuilder T) (p : Nat)
    (d : NodeData T) (f : T → TaskStatus) (hp : peek b.parentNodeStack = some p)
    (hget : b.nodes[p]? = some d) (hd : isDecorator d = true) :
    action f b =
      .ok { b with
            nodes := (b.nodes ++ [NodeData.executeAction f]).set p (setDecoratorChild d b.nodes.length)
          , currentNode := some p
          , parentNodeStack := b.parentNodeStack.dropLast } := by
  have hget' : (b.nodes ++ [NodeData.executeAction f])[p]? = some d := by
    rw [List.getElem?_append_left (List.getElem?_eq_some.mp hget).1]; exact hget
  have hsc := setChildOnParent_dec_top { b with nodes := b.nodes ++ [.executeAction f] }
    p d b.nodes.length hp hget' hd
  rw [action_ok f b (peek_ne_nil hp), hsc]

theorem pushParentNode_empty {T : Type} (b : BehaviorTreeBuilder T) (d : NodeData T)
    (h : b.parentNodeStack = []) :
    pushParentNode b d =
      { b with nodes := b.nodes ++ [d], parentNodeStack := [b.nodes.length] } := by
  simp [pushParentNode, h]

theorem pushParentNode_comp_top {T : Type} (b : BehaviorTreeBuilder T) (p : Nat)
    (d0 d : NodeData T) (hp : peek b.parentNodeStack = some p)
    (hget : b.nodes[p]? = some d0) (hc : isComposite d0 = true) :
    pushParentNode b d =
      { b with nodes := (b.nodes ++ [d]).set p (addCompositeChild d0 b.nodes.length)
             , parentNodeStack := b.parentNodeStack ++ [b.nodes.length] } := by
  have hlen : 0 < b.parentNodeStack.length := List.length_pos.mpr (peek_ne_nil hp)
  have hget' : (b.nodes ++ [d])[p]? = some d0 := by
    rw [List.getElem?_append_left (List.getElem?_eq_some.mp hget).1]; exact hget
  have hsc := setChildOnParent_comp_top { b with nodes := b.nodes ++ [d] }
    p d0 b.nodes.length hp hget' hc
  simp [pushParentNode, hlen, hsc]

theorem pushParentNode_dec_top {T : Type} (b : BehaviorTreeBuilder T) (p : Nat)
    (d0 d : NodeData T) (hp : peek b.parentNodeStack = some p)
    (hget : b.nodes[p]? = some d0) (hd : isDecorator d0 = true) :
    pushParentNode b d =
      { b with nodes := (b.nodes ++ [d]).set p (setDecoratorChild d0 b.nodes.length)
             , currentNode := some p
             , parentNodeStack := b.parentNodeStack.dropLast ++ [b.nodes.length] } := by
  have hlen : 0 < b.parentNodeStack.length := List.length_pos.mpr (peek_ne_nil hp)
  have hget' : (b.nodes ++ [d])[p]? = some d0 := by
    rw [List.getElem?_append_left (List.getElem?_eq_some.mp hget).1]; exact hget
  have hsc := setChildOnParent_dec_top { b with nodes := b.nodes ++ [d] }
    p d0 b.nodes.length hp hget' hd
  simp [pushParentNode, hlen, hsc]

theorem pushParentNode_other_top {T : Type} (b : BehaviorTreeBuilder T) (p : Nat)
    (d0 d : NodeData T) (hp : peek b.parentNodeStack = some p)
    (hget : b.nodes[p]? = some d0) (hc : isComposite d0 = false)
    (hd : isDecorator d0 = false) :
    pushParentNode b d =
      { b with nodes := b.nodes ++ [d]
             , parentNodeStack := b.parentNodeStack ++ [b.nodes.length] } := by
  have hlen : 0 < b.parentNodeStack.length := List.length_pos.mpr (peek_ne_nil hp)
  have hget' : (b.nodes ++ [d])[p]? = some d0 := by
    rw [List.getElem?_append_left (List.getElem?_eq_some.mp hget).1]; exact hget
  have hsc := setChildOnParent_other_top { b with nodes := b.nodes ++ [d] }
    p d0 b.nodes.length hp hget' hc hd
  simp [pushParentNode, hlen, hsc]

theorem endComposite_comp_top {T : Type} (b : BehaviorTreeBuilder T) (p : Nat)
    (d : NodeData T) (hp : peek b.parentNodeStack = some p)
    (hget : b.nodes[p]? = some d) (hc : isComposite d = true) :
    endComposite b =
      .ok { b with currentNode := some p
                 , parentNodeStack := b.parentNodeStack.dropLast } := by
  simp [endComposite, hp, hget, hc]

/-! ### Claim theorems -/

/-- C2: for every context and every child whose evaluation returns a
status, the `AlwaysFail` decorator's evaluation (`AlwaysFail.update`)
returns Running when the child returns Running, Failure when the child
returns Success, and Failure when the child returns Failure. -/
theorem alwaysFail_propagation {T : Type} (nodes : List (NodeData T)) (ctx : T)
    (dId c fuel : Nat) (s : TaskStatus)
    (hd : nodes[dId]? = some (NodeData.alwaysFail (some c)))
    (hc : evalNode fuel nodes ctx c = some s) :
    (s = TaskStatus.Running → evalNode (fuel + 1) nodes ctx dId = some TaskStatus.Running)
    ∧ (s = TaskStatus.Success → evalNode (fuel + 1) nodes ctx dId = some TaskStatus.Failure)
    ∧ (s = TaskStatus.Failure → evalNode (fuel + 1) nodes ctx dId = some TaskStatus.Failure) := by
  refine ⟨?_, ?_, ?_⟩ <;> rintro rfl <;> simp [evalNode, hd, hc]

/-- Witness for C2: a two-node arena, `AlwaysFail` over a leaf that
returns Success, evaluates to Failure. -/
theorem alwaysFail_propagation_witness :
    evalNode 2 [NodeData.executeAction (fun _ : Unit => TaskStatus.Success),
      NodeData.alwaysFail (some 0)] () 1 = some TaskStatus.Failure := by
  have h := alwaysFail_propagation
    [NodeData.executeAction (fun _ : Unit => TaskStatus.Success), NodeData.alwaysFail (some 0)]
    () 1 0 1 TaskStatus.Success rfl rfl
  exact h.2.1 rfl

/-- C3: every leaf-adding operation (`action`, `conditional`,
`logAction`, `waitAction`, `subTree`) issued with an empty parent stack
fails with `EmptyParentStack`; no builder state (and hence no attached
node) is produced. -/
theorem leaf_ops_empty_stack {T : Type} (s : BehaviorTreeBuilder T)
    (h : s.parentNodeStack = []) (f g : T → TaskStatus) (txt : String) (w : Rat)
    (tr : BehaviorTree T) :
    action f s = .error .emptyParentStack
    ∧ conditional g s = .error .emptyParentStack
    ∧ logAction txt s = .error .emptyParentStack
    ∧ waitAction w s = .error .emptyParentStack
    ∧ subTree tr s = .error .emptyParentStack := by
  simp [action, conditional, logAction, waitAction, subTree, h]

/-- Witness for C3 at the freshly begun builder. -/
theorem leaf_ops_empty_stack_witness :
    action (fun _ => TaskStatus.Success) (begin 7) = .error .emptyParentStack
    ∧ conditional (fun _ => TaskStatus.Failure) (begin 7) = .error .emptyParentStack
    ∧ logAction "hi" (begin 7) = .error .emptyParentStack
    ∧ waitAction 2 (begin 7) = .error .emptyParentStack
    ∧ subTree ⟨7, [], 0, 1⟩ (begin 7) = .error .emptyParentStack :=
  leaf_ops_empty_stack (begin 7) rfl (fun _ => TaskStatus.Success)
    (fun _ => TaskStatus.Failure) "hi" 2 ⟨7, [], 0, 1⟩

/-- C4: `endComposite` while the top frame is a decorator fails with
`NotAComposite`; while the top frame is a composite it pops the frame
and records it as `currentNode`. -/
theorem endComposite_spec {T : Type} (s : BehaviorTreeBuilder T) (p : Nat)
    (d : NodeData T) (hp : peek s.parentNodeStack = some p)
    (hget : s.nodes[p]? = some d) :
    (isDecorator d = true → endComposite s = .error .notAComposite)
    ∧ (isComposite d = true →
        endComposite s =
          .ok { s with currentNode := some p
                     , parentNodeStack := s.parentNodeStack.dropLast }) := by
  constructor
  · intro hd
    simp [endComposite, hp, hget, isComposite_false_of_isDecorator d hd]
  · intro hc
    exact endComposite_comp_top s p d hp hget hc

/-- Witness for C4: a decorator on top makes `endComposite` fail. -/
theorem endComposite_spec_witness :
    endComposite (alwaysFail (begin ())) = .error .notAComposite := by
  have h := endComposite_spec (alwaysFail (begin ())) 0 (NodeData.alwaysFail none)
    (by decide) rfl
  exact h.1 rfl

/-- C5 counterexample: `begin(ctx).sequence().action(f)` attaches a
node (the leaf, index 1, becomes the child of the open sequence, index
0), yet `build` still fails with `EmptyTree` — refuting "fails exactly
when no node was ever attached or closed". -/
theorem build_emptyTree_counterexample :
    (action (fun _ => TaskStatus.Success) (sequence AbortTypes.None (begin ())) >>= build 1)
      = .error .emptyTree
    ∧ (action (fun _ => TaskStatus.Success) (sequence AbortTypes.None (begin ()))).map
        (fun b => childIds <$> b.nodes[0]?) = .ok (some [1])
    ∧ (action (fun _ => TaskStatus.Success) (sequence AbortTypes.None (begin ()))).map
        (fun b => b.nodes.length) = .ok 2 :=
  ⟨rfl, rfl, rfl⟩

/-- C5 amended: `build(m)` fails with `EmptyTree` exactly when
`currentNode` is unset, i.e. when no node was ever recorded by a close
(`endComposite` or a decorator self-close) — attaching children to a
still-open composite does not count; whenever `currentNode` is set,
`build(m)` succeeds and returns a tree wrapping the captured context,
`currentNode` as root, and `m`. -/
theorem build_emptyTree_iff {T : Type} (s : BehaviorTreeBuilder T) (m : Rat) :
    (build m s = .error .emptyTree ↔ s.currentNode = none)
    ∧ (∀ n, s.currentNode = some n → build m s = .ok ⟨s.context, s.nodes, n, m⟩) := by
  cases h : s.currentNode <;> simp [build, h]

/-- Witness for C5: a state with `currentNode` set builds successfully. -/
theorem build_emptyTree_iff_witness :
    build 1 (alwaysFail (alwaysFail (begin ()))) =
      .ok ⟨(), [NodeData.alwaysFail (some 1), NodeData.alwaysFail none], 0, 1⟩ :=
  (build_emptyTree_iff (alwaysFail (alwaysFail (begin ()))) 1).2 0 rfl

/-- C6 counterexample: the scenario `begin(ctx).action(_ => Success).build()`
does not succeed — the `action` call sees an empty parent stack and the
whole sequence faults with `EmptyParentStack`. -/
theorem begin_action_build_counterexample :
    (action (fun _ => TaskStatus.Success) (begin ()) >>= build 1)
      = .error .emptyParentStack :=
  rfl

/-- C6 amended: for every context, `begin(ctx).action(f).build(m)`
fails with `EmptyParentStack` at the `action` step (a leaf requires an
enclosing parent frame), so no tree is produced and nothing can be
ticked. -/
theorem begin_action_build_fails {T : Type} (ctx : T) (f : T → TaskStatus) (m : Rat) :
    action f (begin ctx) = .error .emptyParentStack
    ∧ (action f (begin ctx) >>= build m) = .error .emptyParentStack :=
  ⟨rfl, rfl⟩

/-- C8 counterexample: after `begin(ctx).alwaysFail().alwaysFail()` the
first decorator (index 0) already holds the second (index 1) as its
single child, is off the parent stack, and is recorded as
`currentNode` — refuting "a decorator with zero children still on the
stack" and "two childless decorators coexist on the stack". -/
theorem open_over_decorator_counterexample :
    (alwaysFail (alwaysFail (begin ()))).nodes[0]? = some (NodeData.alwaysFail (some 1))
    ∧ (alwaysFail (alwaysFail (begin ()))).parentNodeStack = [1]
    ∧ (alwaysFail (alwaysFail (begin ()))).currentNode = some 0 :=
  ⟨rfl, rfl, rfl⟩

/-- C8 amended: opening a new parent while a decorator is on top of the
stack immediately attaches the new node as that decorator's single
child and self-closes it (pops it and records it as `currentNode`);
only the newly opened frame is pushed on top. -/
theorem open_parent_over_decorator {T : Type} (s : BehaviorTreeBuilder T)
    (p : Nat) (d0 d : NodeData T) (hp : peek s.parentNodeStack = some p)
    (hget : s.nodes[p]? = some d0) (hd : isDecorator d0 = true) :
    pushParentNode s d =
      { s with nodes := (s.nodes ++ [d]).set p (setDecoratorChild d0 s.nodes.length)
             , currentNode := some p
             , parentNodeStack := s.parentNodeStack.dropLast ++ [s.nodes.length] }
    ∧ ((s.nodes ++ [d]).set p (setDecoratorChild d0 s.nodes.length))[p]?
        = some (setDecoratorChild d0 s.nodes.length) := by
  refine ⟨pushParentNode_dec_top s p d0 d hp hget hd, ?_⟩
  have hlt : p < s.nodes.length := (List.getElem?_eq_some.mp hget).1
  have hlt' : p < (s.nodes ++ [d]).length := by
    simp only [List.length_append, List.length_cons, List.length_nil]
    omega
  exact List.getElem?_set_self hlt'

/-- Witness for C8: opening `alwaysSucceed` over an open `alwaysFail`. -/
theorem open_parent_over_decorator_witness :
    pushParentNode (alwaysFail (begin ())) (NodeData.alwaysSucceed none) =
      { context := ()
      , currentNode := some 0
      , parentNodeStack := [1]
      , nodes := [NodeData.alwaysFail (some 1), NodeData.alwaysSucceed none] }
    ∧ (([NodeData.alwaysFail none, NodeData.alwaysSucceed none] :
          List (NodeData Unit)).set 0
        (NodeData.alwaysFail (some 1)))[0]? = some (NodeData.alwaysFail (some 1)) := by
  have h := open_parent_over_decorator (alwaysFail (begin ())) 0
    (NodeData.alwaysFail none) (NodeData.alwaysSucceed none) (by decide) rfl rfl
  exact h

/-- C10: on every builder state, `actionR f` is exactly `action` on the
function mapping `true` to Success and `false` to Failure, and
`conditionalR f` is likewise `conditional` on that mapped function
(same fault, same node, same resulting state). -/
theorem actionR_conditionalR_refinement {T : Type} (s : BehaviorTreeBuilder T)
    (f : T → Bool) :
    actionR f s =
      action (fun t => if f t then TaskStatus.Success else TaskStatus.Failure) s
    ∧ conditionalR f s =
      conditional (fun t => if f t then TaskStatus.Success else TaskStatus.Failure) s :=
  ⟨rfl, rfl⟩

/-- C9: still-open frames never make `build` fail: whenever
`currentNode` is set, `build` succeeds and returns a tree rooted at
`currentNode` even though the parent stack is non-empty.  In the
concrete sequence
`begin(()).sequence().action(f).endComposite().sequence().action(g).build(1)`
the tree is rooted at the first (closed) sequence (index 0, arena of 4
nodes), and neither the still-open second sequence (index 2) nor its
attached child (index 3) is reachable from the root. -/
theorem build_ignores_open_frames :
    (∀ (T : Type) (s : BehaviorTreeBuilder T) (m : Rat) (n : Nat),
       s.currentNode = some n → s.parentNodeStack ≠ [] →
       build m s = .ok ⟨s.context, s.nodes, n, m⟩)
    ∧ (action (fun _ => TaskStatus.Success) (sequence AbortTypes.None (begin ()))
          >>= endComposite
          >>= (fun b => action (fun _ => TaskStatus.Failure) (sequence AbortTypes.None b))
          >>= build 1).map (fun t => (t.rootId, t.nodes.length)) = .ok (0, 4)
    ∧ (action (fun _ => TaskStatus.Success) (sequence AbortTypes.None (begin ()))
          >>= endComposite
          >>= (fun b => action (fun _ => TaskStatus.Failure) (sequence AbortTypes.None b))
          >>= build 1).map (fun t => reachableIds t.nodes 5 t.rootId) = .ok [0, 1] := by
  refine ⟨?_, rfl, rfl⟩
  intro T s m n hn _
  simp [build, hn]

/-- Witness for C9: a builder with `currentNode` set and an open
sequence frame still builds. -/
theorem build_ignores_open_frames_witness :
    build 1 (sequence AbortTypes.None (alwaysFail (alwaysFail (begin ())))) =
      .ok ⟨(), [NodeData.alwaysFail (some 1), NodeData.alwaysFail (some 2),
                NodeData.sequence AbortTypes.None []], 1, 1⟩ := by
  have h := build_ignores_open_frames.1 Unit
    (sequence AbortTypes.None (alwaysFail (alwaysFail (begin ())))) 1 1
    (by decide) (by decide)
  exact h

/-- C1 counterexample: open a decorator over an open decorator.
Immediately before the second `alwaysFail` is opened the stack depth is
1; after opening it and attaching exactly one child the depth is 0,
not 1 — the outer decorator was already closed at open time. -/
theorem decorator_self_close_counterexample :
    (alwaysFail (begin ())).parentNodeStack.length = 1
    ∧ (action (fun _ => TaskStatus.Success) (alwaysFail (alwaysFail (begin ())))).map
        (fun b => b.parentNodeStack.length) = .ok 0 :=
  ⟨rfl, rfl⟩

/-- C1 amended: for every builder state whose stack top (if any) is an
allocated node, opening a decorator and attaching exactly one child
assigns that child as the decorator's single child, pops the decorator
off the stack, and records it as `currentNode`; the attach lowers the
stack depth by exactly one from its post-open value, and this equals
the depth immediately before the decorator was opened whenever the
stack was empty or had a composite on top at open time (opening over a
decorator instead closes that outer decorator at open time, leaving
the final depth one lower). -/
theorem decorator_attach_self_closes {T : Type} (s0 : BehaviorTreeBuilder T)
    (d : NodeData T) (f : T → TaskStatus) (hd : isDecorator d = true)
    (hwf : ∀ q, peek s0.parentNodeStack = some q → ∃ dq, s0.nodes[q]? = some dq) :
    action f (pushParentNode s0 d) =
      .ok { pushParentNode s0 d with
            nodes := ((pushParentNode s0 d).nodes ++ [NodeData.executeAction f]).set
              s0.nodes.length (setDecoratorChild d (pushParentNode s0 d).nodes.length)
          , currentNode := some s0.nodes.length
          , parentNodeStack := (pushParentNode s0 d).parentNodeStack.dropLast }
    ∧ (pushParentNode s0 d).parentNodeStack.dropLast.length + 1
        = (pushParentNode s0 d).parentNodeStack.length
    ∧ ((s0.parentNodeStack = [] ∨
        ∃ p dp, peek s0.parentNodeStack = some p ∧ s0.nodes[p]? = some dp
          ∧ isComposite dp = true) →
        (pushParentNode s0 d).parentNodeStack.dropLast.length
          = s0.parentNodeStack.length) := by
  cases hpk : peek s0.parentNodeStack with
  | none =>
    have hnil : s0.parentNodeStack = [] := by simpa [peek] using hpk
    rw [pushParentNode_empty s0 d hnil]
    have hp1 : peek ([s0.nodes.length] : List Nat) = some s0.nodes.length := by
      simpa using peek_concat [] s0.nodes.length
    have hget1 : (s0.nodes ++ [d])[s0.nodes.length]? = some d := by simp
    refine ⟨?_, by simp, ?_⟩
    · rw [action_dec_top _ s0.nodes.length d f hp1 hget1 hd]
    · intro _; simp [hnil]
  | some p =>
    obtain ⟨dp, hget0⟩ := hwf p hpk
    have hplt : p < s0.nodes.length := (List.getElem?_eq_some.mp hget0).1
    have hpne : p ≠ s0.nodes.length := Nat.ne_of_lt hplt
    cases hcomp : isComposite dp with
    | true =>
      rw [pushParentNode_comp_top s0 p dp d hpk hget0 hcomp]
      have hp1 : peek (s0.parentNodeStack ++ [s0.nodes.length]) = some s0.nodes.length :=
        peek_concat _ _
      have hget1 : ((s0.nodes ++ [d]).set p (addCompositeChild dp s0.nodes.length))[s0.nodes.length]?
          = some d := by
        rw [List.getElem?_set_ne hpne]
        simp
      refine ⟨?_, by simp, ?_⟩
      · rw [action_dec_top _ s0.nodes.length d f hp1 hget1 hd]
      · intro _; simp
    | false =>
      cases hdec : isDecorator dp with
      | true =>
        rw [pushParentNode_dec_top s0 p dp d hpk hget0 hdec]
        have hp1 : peek (s0.parentNodeStack.dropLast ++ [s0.nodes.length])
            = some s0.nodes.length := peek_concat _ _
        have hget1 : ((s0.nodes ++ [d]).set p (setDecoratorChild dp s0.nodes.length))[s0.nodes.length]?
            = some d := by
          rw [List.getElem?_set_ne hpne]
          simp
        refine ⟨?_, by simp, ?_⟩
        · rw [action_dec_top _ s0.nodes.length d f hp1 hget1 hd]
        · rintro (hnil | ⟨p', dp', hp', hget', hc'⟩)
          · exact absurd hnil (peek_ne_nil hpk)
          · exfalso
            obtain rfl : p' = p := (Option.some.inj hp').symm
            obtain rfl : dp' = dp := (Option.some.inj (hget0.symm.trans hget')).symm
            rw [hcomp] at hc'
            exact Bool.false_ne_true hc'
      | false =>
        rw [pushParentNode_other_top s0 p dp d hpk hget0 hcomp hdec]
        have hp1 : peek (s0.parentNodeStack ++ [s0.nodes.length])
            = some s0.nodes.length := peek_concat _ _
        have hget1 : (s0.nodes ++ [d])[s0.nodes.length]? = some d := by simp
        refine ⟨?_, by simp, ?_⟩
        · rw [action_dec_top _ s0.nodes.length d f hp1 hget1 hd]
        · rintro (hnil | ⟨p', dp', hp', hget', hc'⟩)
          · exact absurd hnil (peek_ne_nil hpk)
          · exfalso
            obtain rfl : p' = p := (Option.some.inj hp').symm
            obtain rfl : dp' = dp := (Option.some.inj (hget0.symm.trans hget')).symm
            rw [hcomp] at hc'
            exact Bool.false_ne_true hc'

/-- Witness for C1's amended theorem: a decorator opened over a
composite, then one `action` leaf attached. -/
theorem decorator_attach_self_closes_witness :
    action (fun _ => TaskStatus.Success)
        (pushParentNode (sequence AbortTypes.None (begin ())) (NodeData.alwaysFail none)) =
      .ok ⟨(), some 1, [0],
        [NodeData.sequence AbortTypes.None [1], NodeData.alwaysFail (some 2),
         NodeData.executeAction (fun _ => TaskStatus.Success)]⟩
    ∧ (pushParentNode (sequence AbortTypes.None (begin ()))
        (NodeData.alwaysFail none)).parentNodeStack.dropLast.length + 1
      = (pushParentNode (sequence AbortTypes.None (begin ()))
          (NodeData.alwaysFail none)).parentNodeStack.length := by
  have h := decorator_attach_self_closes (sequence AbortTypes.None (begin ()))
    (NodeData.alwaysFail none) (fun _ => TaskStatus.Success) rfl
    (by intro q hq
        have h0 : peek (sequence AbortTypes.None (begin ())).parentNodeStack = some 0 := by
          decide
        obtain rfl : (0 : Nat) = q := Option.some.inj ((h0.symm.trans hq))
        exact ⟨NodeData.sequence AbortTypes.None [], rfl⟩)
  exact ⟨h.1, h.2.1⟩

/-- Stepping lemma for C7: chained `action` leaves over an open
composite, by induction over the list of leaf functions. -/
theorem actions_comp_top {T : Type} (fs : List (T → TaskStatus)) :
    ∀ (s : BehaviorTreeBuilder T) (p : Nat) (d : NodeData T),
      peek s.parentNodeStack = some p → s.nodes[p]? = some d → isComposite d = true →
      (actions fs s).map (fun b => b.parentNodeStack) = .ok s.parentNodeStack
      ∧ (actions fs s).map (fun b => b.nodes[p]?)
          = .ok (some ((List.range' s.nodes.length fs.length).foldl addCompositeChild d))
      ∧ (actions fs s).map (fun b => b.currentNode) = .ok s.currentNode
      ∧ (actions fs s >>= endComposite).map (fun b => b.parentNodeStack)
          = .ok s.parentNodeStack.dropLast
      ∧ (actions fs s >>= endComposite).map (fun b => b.currentNode) = .ok (some p) := by
  induction fs with
  | nil =>
    intro s p d hp hget hc
    have he := endComposite_comp_top s p d hp hget hc
    refine ⟨rfl, ?_, rfl, ?_, ?_⟩
    · simp [actions, Except.map, hget]
    · simp [actions, Bind.bind, Except.bind, Except.map, he]
    · simp [actions, Bind.bind, Except.bind, Except.map, he]
  | cons f fs ih =>
    intro s p d hp hget hc
    have hplt : p < s.nodes.length := (List.getElem?_eq_some.mp hget).1
    have ha := action_comp_top s p d f hp hget hc
    have hact : actions (f :: fs) s = actions fs { s with nodes := (s.nodes ++ [NodeData.executeAction f]).set p (addCompositeChild d s.nodes.length) } := by
      simp [actions, ha]
    have hget1 : ({ s with nodes := (s.nodes ++ [NodeData.executeAction f]).set p (addCompositeChild d s.nodes.length) } : BehaviorTreeBuilder T).nodes[p]? = some (addCompositeChild d s.nodes.length) := by
      have hplt' : p < (s.nodes ++ [NodeData.executeAction f]).length := by
        simp only [List.length_append, List.length_cons, List.length_nil]
        omega
      exact List.getElem?_set_self hplt'
    have hc1 : isComposite (addCompositeChild d s.nodes.length) = true := by
      rw [isComposite_addCompositeChild]; exact hc
    obtain ⟨ih1, ih2, ih3, ih4, ih5⟩ := ih { s with nodes := (s.nodes ++ [NodeData.executeAction f]).set p (addCompositeChild d s.nodes.length) } p (addCompositeChild d s.nodes.length) hp hget1 hc1
    have hlen1 : ({ s with nodes := (s.nodes ++ [NodeData.executeAction f]).set p (addCompositeChild d s.nodes.length) } : BehaviorTreeBuilder T).nodes.length = s.nodes.length + 1 := by
      simp
    refine ⟨?_, ?_, ?_, ?_, ?_⟩
    · rw [hact]; exact ih1
    · rw [hact, ih2, hlen1, List.length_cons, List.range'_succ, List.foldl_cons]
    · rw [hact]; exact ih3
    · rw [hact]; exact ih4
    · rw [hact]; exact ih5

/-- C7: with a composite open on top of the parent stack, attaching N
children (`action` leaves) appends each new child index in order to its
child list while leaving the stack and `currentNode` unchanged; a
subsequent `endComposite` succeeds, pops exactly one frame (the stack
depth decreases by exactly one) and records the composite as
`currentNode`. -/
theorem composite_children_in_order {T : Type} (s : BehaviorTreeBuilder T) (p : Nat)
    (d : NodeData T) (fs : List (T → TaskStatus))
    (hp : peek s.parentNodeStack = some p) (hget : s.nodes[p]? = some d)
    (hc : isComposite d = true) :
    (actions fs s).map (fun b => b.parentNodeStack) = .ok s.parentNodeStack
    ∧ (actions fs s).map (fun b => b.nodes[p]?)
        = .ok (some ((List.range' s.nodes.length fs.length).foldl addCompositeChild d))
    ∧ (actions fs s).map (fun b => b.currentNode) = .ok s.currentNode
    ∧ (actions fs s >>= endComposite).map (fun b => b.parentNodeStack)
        = .ok s.parentNodeStack.dropLast
    ∧ (actions fs s >>= endComposite).map (fun b => b.currentNode) = .ok (some p)
    ∧ s.parentNodeStack.dropLast.length + 1 = s.parentNodeStack.length := by
  obtain ⟨h1, h2, h3, h4, h5⟩ := actions_comp_top fs s p d hp hget hc
  refine ⟨h1, h2, h3, h4, h5, ?_⟩
  have hpos : 0 < s.parentNodeStack.length := List.length_pos.mpr (peek_ne_nil hp)
  simp [List.length_dropLast]
  omega

/-- Witness for C7: a sequence with two attached leaves, children
`[1, 2]` in order, then closed. -/
theorem composite_children_in_order_witness :
    (actions [fun _ => TaskStatus.Success, fun _ => TaskStatus.Failure]
        (sequence AbortTypes.None (begin ()))).map (fun b => b.nodes[0]?)
      = .ok (some (NodeData.sequence AbortTypes.None [1, 2]))
    ∧ (actions [fun _ => TaskStatus.Success, fun _ => TaskStatus.Failure]
        (sequence AbortTypes.None (begin ()))).map (fun b => b.parentNodeStack)
      = .ok [0]
    ∧ (actions [fun _ => TaskStatus.Success, fun _ => TaskStatus.Failure]
        (sequence AbortTypes.None (begin ())) >>= endComposite).map
        (fun b => b.currentNode) = .ok (some 0) := by
  have h := composite_children_in_order (sequence AbortTypes.None (begin ())) 0
    (NodeData.sequence AbortTypes.None [])
    [fun _ => TaskStatus.Success, fun _ => TaskStatus.Failure]
    (by decide) rfl rfl
  exact ⟨h.2.1, h.1, h.2.2.2.2.1⟩

end BehaviourTree
